import Mathlib

/-!
Shallow embedding of the CQRS projection-synchronization subsystem of the
`users` service: the event store (`EventStoreService`), the projection sync
engine (`ProjectionSyncService`), the direct projection fast path
(`DirectProjectionService`) and the event-sourcing repository
(`UserEventSourcingRepository.save`).

Conventions of the embedding:
* timestamps are natural numbers;
* the two databases are association lists of rows;
* a thrown infrastructure (database) error is represented by an explicit
  failure oracle passed to the function that can observe such an error,
  mirroring the `try`/`catch` structure of the source;
* JavaScript truthiness of optional strings (`undefined`, `''` are falsy)
  is modelled by `truthy`/`jsOr`.
-/

/-- JavaScript truthiness for an optional string: `undefined` and `''` are falsy. -/
def truthy : Option String → Bool
  | none => false
  | some s => !(s == "")

/-- JavaScript `x || d` for an optional string `x` and a string default `d`. -/
def jsOr : Option String → String → String
  | none, d => d
  | some s, d => if s == "" then d else s

/-- Payload of `ProfileUpdatedEvent.changes`: each field is absent (`none`) or present. -/
structure ProfileChanges where
  firstName : Option String := none
  lastName : Option String := none
  phone : Option String := none
deriving DecidableEq

/-- Payload of `UserRegisteredEvent.userData`. -/
structure UserData where
  firstName : String
  lastName : String
  phone : Option String := none
  status : Option String := none
deriving DecidableEq

/-- Discriminated event payload, one constructor per `eventType` string the
sync engine dispatches on; `unhandled` covers every other event type. -/
inductive EventData where
  | userRegistered (userId : String) (email : String) (userData : UserData)
  | userLoginSuccess (userId : String) (ipAddress : Option String)
  | emailVerificationSuccess (userId : String)
  | profileUpdated (userId : String) (changes : ProfileChanges)
  | userStatusChanged (userId : String) (newStatus : String)
  | userDeleted (userId : String)
  | unhandled (eventType : String)
deriving DecidableEq

/-- Row of the `domain_events` table (`DomainEventEntity`).  The table has a
unique index on `(aggregate_id, version)`. -/
structure DomainEventEntity where
  aggregateId : String := ""
  version : Nat
  occurredAt : Nat := 0
  eventData : EventData
deriving DecidableEq

/-- Row of the read-side `user` projection table (`UserProjectionEntity`),
including the columns the sync handlers write. -/
structure UserProjectionEntity where
  id : String
  email : String
  fullName : String
  status : String
  phone : Option String := none
  lastLoginAt : Option Nat := none
  lastLoginIp : Option String := none
  loginCount : Nat := 0
  failedLoginAttempts : Nat := 0
  profileCompletion : Nat := 20
  createdAt : Nat := 0
  updatedAt : Nat := 0
  deletedAt : Option Nat := none
  lastEventVersion : Option Nat := none
deriving DecidableEq

/-- The single `projection_status` row for projection name `user`. -/
structure ProjectionStatusRow where
  lastProcessedVersion : Nat := 0
  totalEventsProcessed : Nat := 0
  errorCount : Nat := 0
  lastError : Option String := none
deriving DecidableEq

/-- SELECT by primary key on the projection table (`findOne({ where: { id } })`). -/
def findUserProjection (store : List UserProjectionEntity) (userId : String) :
    Option UserProjectionEntity :=
  store.find? fun r => r.id == userId

/-- SQL `UPDATE ... WHERE id = :userId`: rewrite the matching rows, leave the
rest; updating a missing row is a no-op. -/
def updateUserProjection (store : List UserProjectionEntity) (userId : String)
    (f : UserProjectionEntity → UserProjectionEntity) : List UserProjectionEntity :=
  store.map fun r => if r.id == userId then f r else r

/-- Row inserted by `handleUserRegistered` (columns not named in the INSERT
take their database defaults). -/
def registeredProjectionRow (userId email : String) (userData : UserData)
    (occurredAt : Nat) : UserProjectionEntity :=
  { id := userId
    email := email
    fullName := userData.firstName ++ " " ++ userData.lastName
    status := jsOr userData.status "PENDING_VERIFICATION"
    phone := userData.phone
    failedLoginAttempts := 0
    profileCompletion := 20
    createdAt := occurredAt
    updatedAt := occurredAt }

/-- Handler for `UserRegisteredEvent`: INSERT with `orIgnore` — the insert is
dropped when it conflicts with an existing row (primary key `id` or the
unique `email` index). -/
def handleUserRegistered (userId email : String) (userData : UserData)
    (event : DomainEventEntity) (store : List UserProjectionEntity) :
    List UserProjectionEntity :=
  if store.any fun r => r.id == userId || r.email == email then store
  else store ++ [registeredProjectionRow userId email userData event.occurredAt]

/-- Handler for `UserLoginSuccessEvent`: absolute writes plus the relative
`login_count + 1` increment. -/
def handleUserLoginSuccess (userId : String) (ipAddress : Option String)
    (event : DomainEventEntity) (store : List UserProjectionEntity) :
    List UserProjectionEntity :=
  updateUserProjection store userId fun r =>
    { r with
      lastLoginAt := some event.occurredAt
      lastLoginIp := ipAddress
      loginCount := r.loginCount + 1
      failedLoginAttempts := 0
      updatedAt := event.occurredAt
      lastEventVersion := some event.version }

/-- Handler for `EmailVerificationSuccessEvent`: sets only `status` and
`updatedAt` (it does not touch `lastEventVersion`). -/
def handleEmailVerified (userId : String) (event : DomainEventEntity)
    (store : List UserProjectionEntity) : List UserProjectionEntity :=
  updateUserProjection store userId fun r =>
    { r with status := "ACCEPTED", updatedAt := event.occurredAt }

/-- JavaScript `s.split(' ')` on the list of characters (keeps empty
segments; the empty string yields one empty segment). -/
def splitOnSpaceAux : List Char → List Char → List String
  | [], acc => [String.mk acc.reverse]
  | c :: cs, acc =>
    if c == ' ' then String.mk acc.reverse :: splitOnSpaceAux cs []
    else splitOnSpaceAux cs (c :: acc)

/-- JavaScript `s.split(' ')`. -/
def splitOnSpace (s : String) : List String :=
  splitOnSpaceAux s.data []

/-- JavaScript `parts.join(' ')`. -/
def joinSpace : List String → String
  | [] => ""
  | [s] => s
  | s :: rest => s ++ " " ++ joinSpace rest

/-- JavaScript `s.trim()`: strip leading and trailing whitespace. -/
def jsTrim (s : String) : String :=
  String.mk (((s.data.dropWhile Char.isWhitespace).reverse.dropWhile
    Char.isWhitespace).reverse)

/-- Handler for `ProfileUpdatedEvent`.  When a name component changes, the new
`full_name` is recombined from the changes and the words of the current row's
`full_name` (`currentName = fullName.split(' ')`); the source also assigns
`updateData.firstName`, a column the projection table does not have, which is
therefore not part of the row model. -/
def handleProfileUpdated (userId : String) (changes : ProfileChanges)
    (event : DomainEventEntity) (store : List UserProjectionEntity) :
    List UserProjectionEntity :=
  let fullNameWrite : Option String :=
    if truthy changes.firstName || truthy changes.lastName then
      match findUserProjection store userId with
      | some projection =>
          let currentName := splitOnSpace projection.fullName
          let firstName := jsOr changes.firstName (currentName.headD "")
          let lastName := jsOr changes.lastName (joinSpace (currentName.drop 1))
          some (jsTrim (firstName ++ " " ++ lastName))
      | none => none
    else none
  updateUserProjection store userId fun r =>
    { r with
      fullName := fullNameWrite.getD r.fullName
      phone := match changes.phone with
        | some p => some p
        | none => r.phone
      updatedAt := event.occurredAt
      lastEventVersion := some event.version }

/-- Handler for `UserStatusChangedEvent`. -/
def handleStatusChanged (userId newStatus : String) (event : DomainEventEntity)
    (store : List UserProjectionEntity) : List UserProjectionEntity :=
  updateUserProjection store userId fun r =>
    { r with
      status := newStatus
      updatedAt := event.occurredAt
      lastEventVersion := some event.version }

/-- Handler for `UserDeletedEvent`: soft delete with terminal status `BLOCKED`. -/
def handleUserDeleted (userId : String) (event : DomainEventEntity)
    (store : List UserProjectionEntity) : List UserProjectionEntity :=
  updateUserProjection store userId fun r =>
    { r with
      deletedAt := some event.occurredAt
      status := "BLOCKED"
      updatedAt := event.occurredAt }

/-- Dispatch of `processEvent`'s `switch (eventType)`; unknown event types are
a logged no-op. -/
def applyEventHandler (event : DomainEventEntity) (store : List UserProjectionEntity) :
    List UserProjectionEntity :=
  match event.eventData with
  | .userRegistered userId email userData => handleUserRegistered userId email userData event store
  | .userLoginSuccess userId ipAddress => handleUserLoginSuccess userId ipAddress event store
  | .emailVerificationSuccess userId => handleEmailVerified userId event store
  | .profileUpdated userId changes => handleProfileUpdated userId changes event store
  | .userStatusChanged userId newStatus => handleStatusChanged userId newStatus event store
  | .userDeleted userId => handleUserDeleted userId event store
  | .unhandled _ => store

/-- UPDATE of the `projection_status` row after a processed event:
`last_processed_version = $1`, `total_events_processed += 1`. -/
def updateProjectionStatus (s : ProjectionStatusRow) (version : Nat) : ProjectionStatusRow :=
  { s with
    lastProcessedVersion := version
    totalEventsProcessed := s.totalEventsProcessed + 1 }

/-- UPDATE of the `projection_status` row on a failed event:
`error_count += 1`, `last_error = $1`. -/
def recordError (s : ProjectionStatusRow) (errorMessage : String) : ProjectionStatusRow :=
  { s with errorCount := s.errorCount + 1, lastError := some errorMessage }

/-- Message of the error thrown while applying one event (the model keys it by
the event's version). -/
def applyFailureMessage (event : DomainEventEntity) : String :=
  "Failed to process event at version " ++ toString event.version

/-- In-memory and persisted state touched by one sync run: the read store, the
checkpoint row, and the service's cached `lastProcessedVersion` field. -/
structure SyncState where
  readStore : List UserProjectionEntity := []
  projectionStatus : ProjectionStatusRow := {}
  lastProcessedVersion : Nat := 0
deriving DecidableEq

/-- One `processEvent` call.  `applyThrows event = true` means a database error
is thrown while applying this event: the handler's write does not happen, the
`catch` records the error in the checkpoint and rethrows.  Otherwise the
handler runs, the checkpoint row is updated, and the cached version advances. -/
def processEvent (applyThrows : DomainEventEntity → Bool) (st : SyncState)
    (event : DomainEventEntity) : SyncState × Option String :=
  if applyThrows event then
    ({ st with projectionStatus := recordError st.projectionStatus (applyFailureMessage event) },
      some (applyFailureMessage event))
  else
    ({ readStore := applyEventHandler event st.readStore
       projectionStatus := updateProjectionStatus st.projectionStatus event.version
       lastProcessedVersion := event.version },
      none)

/-- The `for (const event of unprocessedEvents) await processEvent(event)` loop:
processes events in order, stopping at (and returning) the first thrown error. -/
def processEvents (applyThrows : DomainEventEntity → Bool) (st : SyncState) :
    List DomainEventEntity → SyncState × Option String
  | [] => (st, none)
  | e :: rest =>
    match processEvent applyThrows st e with
    | (st', none) => processEvents applyThrows st' rest
    | (st', some msg) => (st', some msg)

/-- Comparator of `orderBy version ASC`. -/
def versionLe (a b : DomainEventEntity) : Prop :=
  a.version ≤ b.version

instance : DecidableRel versionLe :=
  fun a b => Nat.decLe a.version b.version

/-- The catch-up query: `WHERE version > :lastVersion ORDER BY version ASC
LIMIT 1000` (a stable sort by version over the matching rows, capped at the
1000-row batch limit). -/
def pendingEventsQuery (writeEvents : List DomainEventEntity) (lastVersion : Nat) :
    List DomainEventEntity :=
  (((writeEvents.filter fun e => lastVersion < e.version).insertionSort versionLe).take 1000)

/-- `catchUpProjections`: fetches a single batch (the source has no loop over
batches), processes it event by event, and catches any error thrown by the
loop — the error is logged and swallowed, so the call always returns. -/
def catchUpProjections (applyThrows : DomainEventEntity → Bool)
    (writeEvents : List DomainEventEntity) (st : SyncState) : SyncState :=
  let unprocessedEvents := pendingEventsQuery writeEvents st.lastProcessedVersion
  if unprocessedEvents.isEmpty then st
  else (processEvents applyThrows st unprocessedEvents).1

/-- `loadProjectionStatus`: reads the checkpoint row; on a missing row (or a
failed query) the cached version starts from 0. -/
def loadProjectionStatus (persistedStatus : Option ProjectionStatusRow) : Nat :=
  match persistedStatus with
  | some row => row.lastProcessedVersion
  | none => 0

/-- `onModuleInit`: load the checkpoint, then run the startup catch-up.  The
`Except` return type records that an exception escaping either call would
abort module initialization; both callees catch their own errors. -/
def onModuleInit (applyThrows : DomainEventEntity → Bool)
    (writeEvents : List DomainEventEntity)
    (persistedStatus : Option ProjectionStatusRow)
    (readStore : List UserProjectionEntity) : Except String SyncState :=
  let st : SyncState :=
    { readStore := readStore
      projectionStatus := persistedStatus.getD {}
      lastProcessedVersion := loadProjectionStatus persistedStatus }
  Except.ok (catchUpProjections applyThrows writeEvents st)

/-- Full replay of an event history against the projection store, in order,
one handler call per event (as a rebuild or an at-least-once redelivery does). -/
def applyEventHistory (store : List UserProjectionEntity)
    (history : List DomainEventEntity) : List UserProjectionEntity :=
  history.foldl (fun s e => applyEventHandler e s) store

/-- `DirectProjectionService.markUserAsDeleted`: direct fast-path soft delete,
status `DELETE`, timestamps at the current time. -/
def markUserAsDeleted (now : Nat) (userId : String)
    (store : List UserProjectionEntity) : List UserProjectionEntity :=
  updateUserProjection store userId fun r =>
    { r with deletedAt := some now, status := "DELETE", updatedAt := now }

/-- `DirectProjectionService.userProjectionExists`: `count > 0`, and `false`
when the underlying query throws (`queryThrows`). -/
def userProjectionExists (store : List UserProjectionEntity) (userId : String)
    (queryThrows : Bool) : Bool :=
  if queryThrows then false
  else decide (0 < (store.filter fun r => r.id == userId).length)

/-- `DirectProjectionService.getUserProjection`: `findOne`, and `null` when the
underlying query throws. -/
def getUserProjection (store : List UserProjectionEntity) (userId : String)
    (queryThrows : Bool) : Option UserProjectionEntity :=
  if queryThrows then none
  else findUserProjection store userId

/-- Existence of a row with the given `(aggregate_id, version)` key — the
unique index of `domain_events` that raises Postgres error `23505`. -/
def hasVersionConflict (events : List DomainEventEntity) (aggregateId : String)
    (version : Nat) : Bool :=
  events.any fun e => e.aggregateId == aggregateId && e.version == version

/-- Message of the error `EventStoreService.appendEvent` throws on a
unique-constraint violation. -/
def concurrencyConflictMessage (aggregateId : String) (version : Nat) : String :=
  "Concurrency conflict: Version " ++ toString version ++
    " already exists for aggregate " ++ aggregateId

/-- `EventStoreService.appendEvent`: the insert succeeds unless the
`(aggregate_id, version)` unique constraint is violated, in which case a
concurrency-conflict error is thrown. -/
def appendEvent (events : List DomainEventEntity) (aggregateId : String)
    (eventData : EventData) (version occurredAt : Nat) :
    Except String (List DomainEventEntity) :=
  if hasVersionConflict events aggregateId version then
    Except.error (concurrencyConflictMessage aggregateId version)
  else
    Except.ok (events ++ [{ aggregateId := aggregateId, version := version,
                            occurredAt := occurredAt, eventData := eventData }])

/-- `EventStoreService.getLatestVersion`: `MAX(version)` over the aggregate's
events, `0` when it has none. -/
def getLatestVersion (events : List DomainEventEntity) (aggregateId : String) : Nat :=
  (events.filter fun e => e.aggregateId == aggregateId).foldl
    (fun m e => max m e.version) 0

/-- Row of the write-side `users` table (only the fields the atomicity claim
needs). -/
structure UserRow where
  id : String
  status : String
deriving DecidableEq

/-- The two write-side tables. -/
structure WriteDB where
  users : List UserRow := []
  domainEvents : List DomainEventEntity := []
deriving DecidableEq

/-- The aggregate as `save` consumes it: current state plus uncommitted events. -/
structure UserAggregate where
  id : String
  status : String
  uncommittedEvents : List EventData
deriving DecidableEq

/-- Upsert of the aggregate-state row (`queryRunner.manager.save`). -/
def upsertUserRow (users : List UserRow) (row : UserRow) : List UserRow :=
  if users.any fun r => r.id == row.id then
    users.map fun r => if r.id == row.id then row else r
  else users ++ [row]

/-- The `for (let i = 0; ...)` append loop of `save`: one `appendEvent` per
uncommitted event at versions `newVersion + i`.  `insertThrows i` injects a
database error on the i-th insert (which `appendEvent` rethrows).  Appends run
on the event repository's own connection, so every insert that completed
before the failure remains in the store. -/
def appendUncommitted (insertThrows : Nat → Bool) (aggregateId : String)
    (occurredAt : Nat) :
    Nat → Nat → List EventData → List DomainEventEntity →
    List DomainEventEntity × Option String
  | _, _, [], events => (events, none)
  | i, v, d :: rest, events =>
    if insertThrows i then (events, some "database error")
    else
      match appendEvent events aggregateId d v occurredAt with
      | Except.error msg => (events, some msg)
      | Except.ok events' =>
          appendUncommitted insertThrows aggregateId occurredAt (i + 1) (v + 1) rest events'

/-- `UserEventSourcingRepository.save`: the query-runner transaction buffers
the user-row upsert (committed at the end, discarded on rollback), while the
event appends go through `eventStore.appendEvent`, i.e. the event repository
outside the query runner — their effects survive a rollback.  On any failure
the transaction rolls back and the error is rethrown. -/
def save (db : WriteDB) (user : UserAggregate) (insertThrows : Nat → Bool)
    (occurredAt : Nat) : WriteDB × Option String :=
  let bufferedUsers := upsertUserRow db.users { id := user.id, status := user.status }
  if user.uncommittedEvents.isEmpty then
    ({ users := bufferedUsers, domainEvents := db.domainEvents }, none)
  else
    let currentVersion := getLatestVersion db.domainEvents user.id
    match appendUncommitted insertThrows user.id occurredAt 0 (currentVersion + 1)
        user.uncommittedEvents db.domainEvents with
    | (events', none) => ({ users := bufferedUsers, domainEvents := events' }, none)
    | (events', some msg) => ({ users := db.users, domainEvents := events' }, some msg)

/-- Re-entrancy bookkeeping of the engine: the `isSyncing` boolean plus a
count of in-flight catch-up runs per entry point. -/
structure EngineGuardState where
  isSyncing : Bool := false
  activePeriodicRuns : Nat := 0
  activeRebuildRuns : Nat := 0
  activeStartupRuns : Nat := 0
deriving DecidableEq

/-- Begin/end of each entry point into the catch-up logic. -/
inductive EngineAction where
  | periodicTick
  | periodicComplete
  | rebuildStart
  | rebuildComplete
  | startupStart
  | startupComplete
deriving DecidableEq

/-- One scheduling step.  `periodicSync` checks and sets `isSyncing` (an
overlapping tick is skipped, not queued) and clears it in `finally`;
`rebuildAllProjections` and `onModuleInit` call `catchUpProjections` without
reading or writing the flag. -/
def engineStep (s : EngineGuardState) : EngineAction → Option EngineGuardState
  | .periodicTick =>
    if s.isSyncing then some s
    else some { s with isSyncing := true, activePeriodicRuns := s.activePeriodicRuns + 1 }
  | .periodicComplete =>
    if s.activePeriodicRuns == 0 then none
    else some { s with isSyncing := false, activePeriodicRuns := s.activePeriodicRuns - 1 }
  | .rebuildStart => some { s with activeRebuildRuns := s.activeRebuildRuns + 1 }
  | .rebuildComplete =>
    if s.activeRebuildRuns == 0 then none
    else some { s with activeRebuildRuns := s.activeRebuildRuns - 1 }
  | .startupStart => some { s with activeStartupRuns := s.activeStartupRuns + 1 }
  | .startupComplete =>
    if s.activeStartupRuns == 0 then none
    else some { s with activeStartupRuns := s.activeStartupRuns - 1 }

/-- Run a sequence of scheduling steps. -/
def engineRun : EngineGuardState → List EngineAction → Option EngineGuardState
  | s, [] => some s
  | s, a :: rest =>
    match engineStep s a with
    | some s' => engineRun s' rest
    | none => none

/-- Number of catch-up runs executing at once. -/
def activeCatchUpRuns (s : EngineGuardState) : Nat :=
  s.activePeriodicRuns + s.activeRebuildRuns + s.activeStartupRuns

/-! ### C10 — read accessors of the direct projection service -/

/-- C10: the read accessors never propagate storage errors — when the
underlying query throws, `userProjectionExists` answers `false` and
`getUserProjection` answers `none`, exactly the answers a missing projection
gets, so a caller cannot distinguish a missing projection from a failed
lookup. -/
theorem c10_read_accessors_swallow_errors (store : List UserProjectionEntity)
    (userId : String) (hmiss : findUserProjection store userId = none) :
    userProjectionExists store userId true = false ∧
    getUserProjection store userId true = none ∧
    userProjectionExists store userId false = false ∧
    getUserProjection store userId false = none := by
  refine ⟨rfl, rfl, ?_, ?_⟩
  · have h : (store.filter fun r => r.id == userId) = [] := by
      rw [List.filter_eq_nil_iff]
      intro a ha
      exact List.find?_eq_none.mp hmiss a ha
    simp [userProjectionExists, h]
  · simp [getUserProjection, hmiss]

/-- C10 witness: the empty store at a concrete user id. -/
theorem c10_read_accessors_swallow_errors_witness :
    userProjectionExists [] "u1" true = false ∧
    getUserProjection [] "u1" true = none ∧
    userProjectionExists [] "u1" false = false ∧
    getUserProjection [] "u1" false = none :=
  c10_read_accessors_swallow_errors [] "u1" (by decide)

/-! ### C5 — optimistic concurrency on append -/

/-- C5: `appendEvent` fails with the concurrency-conflict error exactly when an
event with the same `(aggregateId, version)` already exists, and succeeds
otherwise; consequently appending two events at the same fresh
`(aggregateId, version)` yields exactly one success and one conflict. -/
theorem c5_append_concurrency_conflict (events : List DomainEventEntity)
    (aggregateId : String) (d1 d2 : EventData) (version t1 t2 : Nat)
    (hfree : hasVersionConflict events aggregateId version = false) :
    (∀ (es : List DomainEventEntity) (a : String) (d : EventData) (v t : Nat),
      (∃ msg, appendEvent es a d v t = Except.error msg) ↔
        hasVersionConflict es a v = true) ∧
    ∃ events', appendEvent events aggregateId d1 version t1 = Except.ok events' ∧
      appendEvent events' aggregateId d2 version t2 =
        Except.error (concurrencyConflictMessage aggregateId version) := by
  constructor
  · intro es a d v t
    unfold appendEvent
    cases h : hasVersionConflict es a v <;> simp [h]
  · refine ⟨events ++ [⟨aggregateId, version, t1, d1⟩], ?_, ?_⟩
    · simp [appendEvent, hfree]
    · have hconf :
          hasVersionConflict (events ++ [⟨aggregateId, version, t1, d1⟩])
            aggregateId version = true := by
        simp [hasVersionConflict, List.any_append]
      simp [appendEvent, hconf]

/-- C5 witness: a fresh store, two appends of version 1 for the same aggregate. -/
theorem c5_append_concurrency_conflict_witness :
    (∀ (es : List DomainEventEntity) (a : String) (d : EventData) (v t : Nat),
      (∃ msg, appendEvent es a d v t = Except.error msg) ↔
        hasVersionConflict es a v = true) ∧
    ∃ events', appendEvent [] "u1" (EventData.userDeleted "u1") 1 3 = Except.ok events' ∧
      appendEvent events' "u1" (EventData.emailVerificationSuccess "u1") 1 4 =
        Except.error (concurrencyConflictMessage "u1" 1) :=
  c5_append_concurrency_conflict [] "u1" (EventData.userDeleted "u1")
    (EventData.emailVerificationSuccess "u1") 1 3 4 (by decide)

/-! ### C6 — atomicity of the aggregate save -/

/-- C6: evaluation of `save` at the failing input.  Saving an aggregate with
two uncommitted events where the second event's insert fails returns the
rethrown error with the user-state row rolled back, yet the first event is
still persisted in the event store: the state upsert and the event appends are
not atomic, because the appends run on the event repository outside the
query-runner transaction. -/
theorem c6_save_not_atomic :
    save {}
      { id := "u1", status := "ACCEPTED",
        uncommittedEvents := [EventData.userDeleted "u1",
                              EventData.emailVerificationSuccess "u1"] }
      (fun i => i == 1) 7 =
    ({ users := [],
       domainEvents := [{ aggregateId := "u1", version := 1, occurredAt := 7,
                          eventData := EventData.userDeleted "u1" }] },
     some "database error") := by decide

/-! ### C4 — agreement of the two deletion write paths -/

/-- C4: counterexample — on the same single-row store and the same timestamp,
the direct fast path (`markUserAsDeleted`) writes status `DELETE` while the
sync-engine replay of `UserDeleted` writes status `BLOCKED`, so the two write
paths do not produce equal projection rows. -/
theorem c4_counterexample :
    (markUserAsDeleted 5 "u1"
      [{ id := "u1", email := "a@example.com", fullName := "Alice Smith",
         status := "ACCEPTED", createdAt := 1, updatedAt := 1 }]).map
      (fun r => r.status) = ["DELETE"] ∧
    (applyEventHandler
      { aggregateId := "u1", version := 3, occurredAt := 5,
        eventData := EventData.userDeleted "u1" }
      [{ id := "u1", email := "a@example.com", fullName := "Alice Smith",
         status := "ACCEPTED", createdAt := 1, updatedAt := 1 }]).map
      (fun r => r.status) = ["BLOCKED"] ∧
    markUserAsDeleted 5 "u1"
      [{ id := "u1", email := "a@example.com", fullName := "Alice Smith",
         status := "ACCEPTED", createdAt := 1, updatedAt := 1 }] ≠
    applyEventHandler
      { aggregateId := "u1", version := 3, occurredAt := 5,
        eventData := EventData.userDeleted "u1" }
      [{ id := "u1", email := "a@example.com", fullName := "Alice Smith",
         status := "ACCEPTED", createdAt := 1, updatedAt := 1 }] := by decide

/-- C4 (amended): both write paths set the soft-delete timestamp on the target
row, but they disagree on the terminal status — the direct fast path writes
`DELETE` at the current time while the sync-engine replay writes `BLOCKED` at
the event's `occurredAt` — so on an existing row the two paths produce rows
that differ. -/
theorem c4_amended_paths_disagree (store : List UserProjectionEntity)
    (userId : String) (now version occurredAt : Nat)
    (r : UserProjectionEntity) (hr : r ∈ store) (hid : r.id = userId) :
    { r with deletedAt := some now, status := "DELETE", updatedAt := now }
        ∈ markUserAsDeleted now userId store ∧
    { r with deletedAt := some occurredAt, status := "BLOCKED", updatedAt := occurredAt }
        ∈ applyEventHandler
            { aggregateId := userId, version := version, occurredAt := occurredAt,
              eventData := EventData.userDeleted userId } store ∧
    { r with deletedAt := some now, status := "DELETE", updatedAt := now } ≠
      { r with deletedAt := some occurredAt, status := "BLOCKED", updatedAt := occurredAt } := by
  refine ⟨?_, ?_, ?_⟩
  · unfold markUserAsDeleted updateUserProjection
    rw [List.mem_map]
    exact ⟨r, hr, by simp [hid]⟩
  · unfold applyEventHandler handleUserDeleted updateUserProjection
    rw [List.mem_map]
    exact ⟨r, hr, by simp [hid]⟩
  · intro h
    have hstat := congrArg UserProjectionEntity.status h
    simp at hstat

/-- C4 witness: a concrete row, the direct delete at time 5 and the replay of
a `UserDeleted` event occurred at time 9. -/
theorem c4_amended_paths_disagree_witness :
    { ({ id := "u1", email := "a@example.com", fullName := "Alice Smith",
         status := "ACCEPTED", createdAt := 1, updatedAt := 1 } : UserProjectionEntity)
      with deletedAt := some 5, status := "DELETE", updatedAt := 5 }
        ∈ markUserAsDeleted 5 "u1"
          [{ id := "u1", email := "a@example.com", fullName := "Alice Smith",
             status := "ACCEPTED", createdAt := 1, updatedAt := 1 }] ∧
    { ({ id := "u1", email := "a@example.com", fullName := "Alice Smith",
         status := "ACCEPTED", createdAt := 1, updatedAt := 1 } : UserProjectionEntity)
      with deletedAt := some 9, status := "BLOCKED", updatedAt := 9 }
        ∈ applyEventHandler
            { aggregateId := "u1", version := 3, occurredAt := 9,
              eventData := EventData.userDeleted "u1" }
            [{ id := "u1", email := "a@example.com", fullName := "Alice Smith",
               status := "ACCEPTED", createdAt := 1, updatedAt := 1 }] ∧
    { ({ id := "u1", email := "a@example.com", fullName := "Alice Smith",
         status := "ACCEPTED", createdAt := 1, updatedAt := 1 } : UserProjectionEntity)
      with deletedAt := some 5, status := "DELETE", updatedAt := 5 } ≠
      { ({ id := "u1", email := "a@example.com", fullName := "Alice Smith",
           status := "ACCEPTED", createdAt := 1, updatedAt := 1 } : UserProjectionEntity)
        with deletedAt := some 9, status := "BLOCKED", updatedAt := 9 } :=
  c4_amended_paths_disagree
    [{ id := "u1", email := "a@example.com", fullName := "Alice Smith",
       status := "ACCEPTED", createdAt := 1, updatedAt := 1 }]
    "u1" 5 3 9
    { id := "u1", email := "a@example.com", fullName := "Alice Smith",
      status := "ACCEPTED", createdAt := 1, updatedAt := 1 }
    (List.mem_singleton.mpr rfl) rfl

/-! ### Helper lemmas about the event-processing loop -/

/-- Stepping the loop over a non-failing head event. -/
theorem processEvents_cons_ok (applyThrows : DomainEventEntity → Bool)
    (st : SyncState) (e : DomainEventEntity) (rest : List DomainEventEntity)
    (he : applyThrows e = false) :
    processEvents applyThrows st (e :: rest)
      = processEvents applyThrows (processEvent applyThrows st e).1 rest := by
  simp [processEvents, processEvent, he]

/-- A batch with no failing event is processed in full: no error escapes, the
processed-events counter grows by the batch size, the persisted cursor ends at
the last event's version, and the read store is the handler fold over the
batch. -/
theorem processEvents_no_failure (applyThrows : DomainEventEntity → Bool)
    (l : List DomainEventEntity) (st : SyncState)
    (h : ∀ e ∈ l, applyThrows e = false) :
    (processEvents applyThrows st l).2 = none ∧
    (processEvents applyThrows st l).1.projectionStatus.totalEventsProcessed
      = st.projectionStatus.totalEventsProcessed + l.length ∧
    (processEvents applyThrows st l).1.projectionStatus.lastProcessedVersion
      = (l.map fun e => e.version).getLastD st.projectionStatus.lastProcessedVersion ∧
    (processEvents applyThrows st l).1.readStore = applyEventHistory st.readStore l := by
  revert h
  induction l generalizing st with
  | nil =>
    intro h
    simp [processEvents, applyEventHistory]
  | cons e rest ih =>
    intro h
    have he : applyThrows e = false := h e (List.mem_cons_self e rest)
    have hrest : ∀ x ∈ rest, applyThrows x = false :=
      fun x hx => h x (List.mem_cons_of_mem e hx)
    rw [processEvents_cons_ok applyThrows st e rest he]
    obtain ⟨h1, h2, h3, h4⟩ := ih (processEvent applyThrows st e).1 hrest
    refine ⟨h1, ?_, ?_, ?_⟩
    · rw [h2]
      simp [processEvent, he, updateProjectionStatus]
      omega
    · rw [h3, List.map_cons, List.getLastD_cons]
      congr 1
      simp [processEvent, he, updateProjectionStatus]
    · rw [h4]
      simp [processEvent, he, applyEventHistory]

/-- A failing event stops the loop: the state is the one reached after the
non-failing prefix, plus the error recording; no later event is touched. -/
theorem processEvents_failure_aborts (applyThrows : DomainEventEntity → Bool)
    (st : SyncState) (good : List DomainEventEntity) (bad : DomainEventEntity)
    (rest : List DomainEventEntity)
    (hgood : ∀ x ∈ good, applyThrows x = false) (hbad : applyThrows bad = true) :
    processEvents applyThrows st (good ++ bad :: rest) =
      ({ (processEvents applyThrows st good).1 with
          projectionStatus :=
            recordError (processEvents applyThrows st good).1.projectionStatus
              (applyFailureMessage bad) },
        some (applyFailureMessage bad)) := by
  revert hgood
  induction good generalizing st with
  | nil =>
    intro hgood
    simp [processEvents, processEvent, hbad]
  | cons g gs ih =>
    intro hgood
    have hg : applyThrows g = false := hgood g (List.mem_cons_self g gs)
    have hgs : ∀ x ∈ gs, applyThrows x = false :=
      fun x hx => hgood x (List.mem_cons_of_mem g hx)
    rw [List.cons_append, processEvents_cons_ok applyThrows st g _ hg,
      processEvents_cons_ok applyThrows st g gs hg, ih _ hgs]

/-! ### C1 — one catch-up cycle and the batch limit -/

/-- A catch-up cycle with no failing event increments the processed-events
counter by the size of the single fetched batch: the number of pending events
capped at the 1000-row limit. -/
theorem catchUp_total_single_batch (writeEvents : List DomainEventEntity)
    (st : SyncState) :
    (catchUpProjections (fun _ => false) writeEvents st).projectionStatus.totalEventsProcessed
      = st.projectionStatus.totalEventsProcessed
        + min 1000 ((writeEvents.filter fun e => st.lastProcessedVersion < e.version).length) := by
  have hlen : (pendingEventsQuery writeEvents st.lastProcessedVersion).length
      = min 1000 ((writeEvents.filter fun e => st.lastProcessedVersion < e.version).length) := by
    unfold pendingEventsQuery
    rw [List.length_take, (List.perm_insertionSort versionLe _).length_eq]
  simp only [catchUpProjections]
  by_cases hb : (pendingEventsQuery writeEvents st.lastProcessedVersion).isEmpty = true
  · have h0 : (pendingEventsQuery writeEvents st.lastProcessedVersion).length = 0 := by
      rw [List.isEmpty_iff] at hb
      rw [hb]
      rfl
    rw [h0] at hlen
    rw [if_pos hb]
    omega
  · rw [if_neg hb]
    obtain ⟨h1, h2, h3, h4⟩ := processEvents_no_failure (fun _ => false)
      (pendingEventsQuery writeEvents st.lastProcessedVersion) st (fun e _ => rfl)
    rw [h2, hlen]

/-- C1: counterexample — with 1001 pending events (one more than the batch
limit) and an initial checkpoint of 0, a single completed catch-up cycle
increments `total_events_processed` by only 1000, not by 1001: the source
fetches exactly one `LIMIT 1000` batch and has no loop over batches. -/
theorem c1_counterexample :
    (catchUpProjections (fun _ => false)
      ((List.range 1001).map fun i =>
        { aggregateId := "u1", version := i + 1, occurredAt := 0,
          eventData := EventData.unhandled "SomeOtherEvent" })
      {}).projectionStatus.totalEventsProcessed = 1000 ∧
    (1000 : Nat) ≠ 1001 := by
  constructor
  · rw [catchUp_total_single_batch]
    have hfil : ((List.range 1001).map fun i =>
        ({ aggregateId := "u1", version := i + 1, occurredAt := 0,
           eventData := EventData.unhandled "SomeOtherEvent" } : DomainEventEntity)).filter
          (fun e => (0 : Nat) < e.version)
        = (List.range 1001).map fun i =>
            ({ aggregateId := "u1", version := i + 1, occurredAt := 0,
               eventData := EventData.unhandled "SomeOtherEvent" } : DomainEventEntity) := by
      rw [List.filter_eq_self]
      intro a ha
      obtain ⟨i, hi, rfl⟩ := List.mem_map.mp ha
      simp
    simp [hfil]
  · decide

/-- C1 (amended): one catch-up run fetches a single batch of at most 1000
pending events (version greater than the cursor, ascending) and, when every
handler succeeds, increments `total_events_processed` by exactly
min(N, 1000) — so it equals N only when at most one batch is pending; draining
more than 1000 events takes further runs. -/
theorem c1_amended_single_batch_bound (writeEvents : List DomainEventEntity)
    (st : SyncState) :
    (catchUpProjections (fun _ => false) writeEvents st).projectionStatus.totalEventsProcessed
      = st.projectionStatus.totalEventsProcessed
        + min 1000 ((writeEvents.filter fun e => st.lastProcessedVersion < e.version).length) :=
  catchUp_total_single_batch writeEvents st

/-! ### C2 — failures during the startup catch-up -/

/-- C2: counterexample — a handler failure during the startup catch-up is
swallowed inside `catchUpProjections`: `onModuleInit` still returns
successfully (service boot is not aborted), even though the failure really
happened and was recorded in the checkpoint's error count. -/
theorem c2_counterexample :
    (onModuleInit (fun e => e.version == 1)
      [{ aggregateId := "u1", version := 1, occurredAt := 0,
         eventData := EventData.emailVerificationSuccess "u1" }]
      none []).isOk = true ∧
    (match onModuleInit (fun e => e.version == 1)
      [{ aggregateId := "u1", version := 1, occurredAt := 0,
         eventData := EventData.emailVerificationSuccess "u1" }]
      none [] with
     | Except.ok st => st.projectionStatus.errorCount
     | Except.error _ => 0) = 1 := by
  constructor
  · decide
  · decide

/-- C2 (amended): an exception thrown while applying an event during the
startup catch-up is caught inside `catchUpProjections` and only logged:
`onModuleInit` completes normally (service boot is not aborted), with the
failure recorded in the checkpoint's error count and last error; when the
first pending event fails, no handler write happens and the cursor does not
move. -/
theorem c2_amended_startup_failure_swallowed
    (applyThrows : DomainEventEntity → Bool)
    (writeEvents : List DomainEventEntity)
    (persistedStatus : Option ProjectionStatusRow)
    (readStore : List UserProjectionEntity)
    (e : DomainEventEntity) (rest : List DomainEventEntity)
    (hbatch : pendingEventsQuery writeEvents (loadProjectionStatus persistedStatus)
      = e :: rest)
    (hthrow : applyThrows e = true) :
    onModuleInit applyThrows writeEvents persistedStatus readStore =
      Except.ok
        { readStore := readStore
          projectionStatus :=
            recordError (persistedStatus.getD {}) (applyFailureMessage e)
          lastProcessedVersion := loadProjectionStatus persistedStatus } := by
  simp only [onModuleInit, catchUpProjections]
  rw [hbatch]
  simp [processEvents, processEvent, hthrow]

/-- C2 witness: a concrete one-event store whose only handler throws. -/
theorem c2_amended_startup_failure_swallowed_witness :
    onModuleInit (fun e => e.version == 1)
      [{ aggregateId := "u1", version := 1, occurredAt := 0,
         eventData := EventData.emailVerificationSuccess "u1" }]
      none [] =
      Except.ok
        { readStore := []
          projectionStatus :=
            recordError ((none : Option ProjectionStatusRow).getD {})
              (applyFailureMessage
                { aggregateId := "u1", version := 1, occurredAt := 0,
                  eventData := EventData.emailVerificationSuccess "u1" })
          lastProcessedVersion := loadProjectionStatus none } :=
  c2_amended_startup_failure_swallowed (fun e => e.version == 1)
    [{ aggregateId := "u1", version := 1, occurredAt := 0,
       eventData := EventData.emailVerificationSuccess "u1" }]
    none []
    { aggregateId := "u1", version := 1, occurredAt := 0,
      eventData := EventData.emailVerificationSuccess "u1" }
    [] (by decide) (by decide)

/-! ### C3 — a failing event aborts the run and the checkpoint is per-event -/

/-- C3: within one catch-up run the events before the first failing event are
applied one by one, each persisting the cursor and the processed-events
counter; when an event's handler throws, the run returns at once with the
error — no later event of the run is processed — the checkpoint's error count
is incremented with the message recorded, its cursor stays at the last
successfully applied version (never the failing event's version), and the read
store reflects exactly the successfully applied prefix. -/
theorem c3_failing_event_aborts_run (applyThrows : DomainEventEntity → Bool)
    (st : SyncState) (good : List DomainEventEntity) (bad : DomainEventEntity)
    (rest : List DomainEventEntity)
    (hgood : ∀ x ∈ good, applyThrows x = false) (hbad : applyThrows bad = true) :
    processEvents applyThrows st (good ++ bad :: rest) =
      ({ (processEvents applyThrows st good).1 with
          projectionStatus :=
            recordError (processEvents applyThrows st good).1.projectionStatus
              (applyFailureMessage bad) },
        some (applyFailureMessage bad)) ∧
    (processEvents applyThrows st good).1.projectionStatus.totalEventsProcessed
      = st.projectionStatus.totalEventsProcessed + good.length ∧
    (processEvents applyThrows st good).1.projectionStatus.lastProcessedVersion
      = (good.map fun x => x.version).getLastD st.projectionStatus.lastProcessedVersion ∧
    (processEvents applyThrows st good).1.readStore
      = applyEventHistory st.readStore good := by
  obtain ⟨h1, h2, h3, h4⟩ := processEvents_no_failure applyThrows good st hgood
  exact ⟨processEvents_failure_aborts applyThrows st good bad rest hgood hbad, h2, h3, h4⟩

/-- C3 witness: a run of three events for one aggregate whose second handler
throws. -/
theorem c3_failing_event_aborts_run_witness :
    processEvents (fun e => e.version == 2)
      { readStore := [], projectionStatus := {}, lastProcessedVersion := 0 }
      ([{ aggregateId := "u1", version := 1, occurredAt := 1,
          eventData := EventData.userRegistered "u1" "a@example.com"
            { firstName := "Alice", lastName := "Smith" } }] ++
        { aggregateId := "u1", version := 2, occurredAt := 2,
          eventData := EventData.emailVerificationSuccess "u1" } ::
        [{ aggregateId := "u1", version := 3, occurredAt := 3,
           eventData := EventData.userDeleted "u1" }]) =
      ({ (processEvents (fun e => e.version == 2)
            { readStore := [], projectionStatus := {}, lastProcessedVersion := 0 }
            [{ aggregateId := "u1", version := 1, occurredAt := 1,
               eventData := EventData.userRegistered "u1" "a@example.com"
                 { firstName := "Alice", lastName := "Smith" } }]).1 with
          projectionStatus :=
            recordError
              (processEvents (fun e => e.version == 2)
                { readStore := [], projectionStatus := {}, lastProcessedVersion := 0 }
                [{ aggregateId := "u1", version := 1, occurredAt := 1,
                   eventData := EventData.userRegistered "u1" "a@example.com"
                     { firstName := "Alice", lastName := "Smith" } }]).1.projectionStatus
              (applyFailureMessage
                { aggregateId := "u1", version := 2, occurredAt := 2,
                  eventData := EventData.emailVerificationSuccess "u1" }) },
        some (applyFailureMessage
          { aggregateId := "u1", version := 2, occurredAt := 2,
            eventData := EventData.emailVerificationSuccess "u1" })) ∧
    (processEvents (fun e => e.version == 2)
      { readStore := [], projectionStatus := {}, lastProcessedVersion := 0 }
      [{ aggregateId := "u1", version := 1, occurredAt := 1,
         eventData := EventData.userRegistered "u1" "a@example.com"
           { firstName := "Alice", lastName := "Smith" } }]).1.projectionStatus.totalEventsProcessed
      = ({} : ProjectionStatusRow).totalEventsProcessed + 1 ∧
    (processEvents (fun e => e.version == 2)
      { readStore := [], projectionStatus := {}, lastProcessedVersion := 0 }
      [{ aggregateId := "u1", version := 1, occurredAt := 1,
         eventData := EventData.userRegistered "u1" "a@example.com"
           { firstName := "Alice", lastName := "Smith" } }]).1.projectionStatus.lastProcessedVersion
      = ([1].getLastD ({} : ProjectionStatusRow).lastProcessedVersion) ∧
    (processEvents (fun e => e.version == 2)
      { readStore := [], projectionStatus := {}, lastProcessedVersion := 0 }
      [{ aggregateId := "u1", version := 1, occurredAt := 1,
         eventData := EventData.userRegistered "u1" "a@example.com"
           { firstName := "Alice", lastName := "Smith" } }]).1.readStore
      = applyEventHistory []
          [{ aggregateId := "u1", version := 1, occurredAt := 1,
             eventData := EventData.userRegistered "u1" "a@example.com"
               { firstName := "Alice", lastName := "Smith" } }] :=
  c3_failing_event_aborts_run (fun e => e.version == 2)
    { readStore := [], projectionStatus := {}, lastProcessedVersion := 0 }
    [{ aggregateId := "u1", version := 1, occurredAt := 1,
       eventData := EventData.userRegistered "u1" "a@example.com"
         { firstName := "Alice", lastName := "Smith" } }]
    { aggregateId := "u1", version := 2, occurredAt := 2,
      eventData := EventData.emailVerificationSuccess "u1" }
    [{ aggregateId := "u1", version := 3, occurredAt := 3,
       eventData := EventData.userDeleted "u1" }]
    (by decide) (by decide)

/-! ### C7 — the registration / email-verification scenario -/

/-- C7: counterexample — after catch-up processes `UserRegistered` v1 and then
`EmailVerificationSuccess` v2, the projection row's status is `ACCEPTED` but
its last-applied-event-version watermark is still unset (the email-verification
handler writes only `status` and `updatedAt`), so the watermark does not equal 2. -/
theorem c7_counterexample :
    (findUserProjection
      (catchUpProjections (fun _ => false)
        [{ aggregateId := "u1", version := 1, occurredAt := 1,
           eventData := EventData.userRegistered "u1" "a@example.com"
             { firstName := "Alice", lastName := "Smith" } },
         { aggregateId := "u1", version := 2, occurredAt := 2,
           eventData := EventData.emailVerificationSuccess "u1" }]
        (catchUpProjections (fun _ => false)
          [{ aggregateId := "u1", version := 1, occurredAt := 1,
             eventData := EventData.userRegistered "u1" "a@example.com"
               { firstName := "Alice", lastName := "Smith" } }]
          {})).readStore "u1").map (fun r => (r.status, r.lastEventVersion))
      = some ("ACCEPTED", (none : Option Nat)) ∧
    (none : Option Nat) ≠ some 2 := by
  constructor
  · decide
  · decide

/-- C7 (amended): in the scenario, after catch-up of v1 the projection row
exists with status `PENDING_VERIFICATION`; after v2 is appended and caught up
the row's status is `ACCEPTED` and the checkpoint's `last_processed_version`
is 2, but the projection row's own last-applied-event-version watermark is not
written by the email-verification handler and remains unset. -/
theorem c7_amended_watermark_not_updated :
    (findUserProjection
      (catchUpProjections (fun _ => false)
        [{ aggregateId := "u1", version := 1, occurredAt := 1,
           eventData := EventData.userRegistered "u1" "a@example.com"
             { firstName := "Alice", lastName := "Smith" } }]
        {}).readStore "u1").map (fun r => r.status)
      = some "PENDING_VERIFICATION" ∧
    (findUserProjection
      (catchUpProjections (fun _ => false)
        [{ aggregateId := "u1", version := 1, occurredAt := 1,
           eventData := EventData.userRegistered "u1" "a@example.com"
             { firstName := "Alice", lastName := "Smith" } },
         { aggregateId := "u1", version := 2, occurredAt := 2,
           eventData := EventData.emailVerificationSuccess "u1" }]
        (catchUpProjections (fun _ => false)
          [{ aggregateId := "u1", version := 1, occurredAt := 1,
             eventData := EventData.userRegistered "u1" "a@example.com"
               { firstName := "Alice", lastName := "Smith" } }]
          {})).readStore "u1").map (fun r => (r.status, r.lastEventVersion))
      = some ("ACCEPTED", (none : Option Nat)) ∧
    (catchUpProjections (fun _ => false)
      [{ aggregateId := "u1", version := 1, occurredAt := 1,
         eventData := EventData.userRegistered "u1" "a@example.com"
           { firstName := "Alice", lastName := "Smith" } },
       { aggregateId := "u1", version := 2, occurredAt := 2,
         eventData := EventData.emailVerificationSuccess "u1" }]
      (catchUpProjections (fun _ => false)
        [{ aggregateId := "u1", version := 1, occurredAt := 1,
           eventData := EventData.userRegistered "u1" "a@example.com"
             { firstName := "Alice", lastName := "Smith" } }]
        {})).projectionStatus.lastProcessedVersion = 2 := by
  refine ⟨?_, ?_, ?_⟩ <;> decide

/-! ### C9 — the currently-syncing guard -/

/-- C9: counterexample — the manual rebuild neither checks nor sets the
`isSyncing` flag, so a periodic tick arriving while a rebuild is running finds
the flag clear and starts a second concurrent catch-up run: two runs are
active at once. -/
theorem c9_counterexample :
    (engineRun {} [EngineAction.rebuildStart, EngineAction.periodicTick]).map
      activeCatchUpRuns = some 2 ∧ ¬(2 ≤ 1) := by
  constructor
  · decide
  · decide

/-- Invariant of periodic-only schedules: the flag tracks the single in-flight
periodic run and no rebuild or startup run is active. -/
theorem engineRun_periodic_only (actions : List EngineAction)
    (hacts : ∀ a ∈ actions,
      a = EngineAction.periodicTick ∨ a = EngineAction.periodicComplete)
    (s : EngineGuardState)
    (hinv : s.activePeriodicRuns ≤ 1 ∧ (s.isSyncing = false → s.activePeriodicRuns = 0) ∧
      s.activeRebuildRuns = 0 ∧ s.activeStartupRuns = 0)
    (s' : EngineGuardState) (hrun : engineRun s actions = some s') :
    s'.activePeriodicRuns ≤ 1 ∧ (s'.isSyncing = false → s'.activePeriodicRuns = 0) ∧
      s'.activeRebuildRuns = 0 ∧ s'.activeStartupRuns = 0 := by
  revert hacts hinv hrun
  induction actions generalizing s with
  | nil =>
    intro hacts hinv hrun
    simp [engineRun] at hrun
    exact hrun ▸ hinv
  | cons a rest ih =>
    intro hacts hinv hrun
    have hrest : ∀ x ∈ rest,
        x = EngineAction.periodicTick ∨ x = EngineAction.periodicComplete :=
      fun x hx => hacts x (List.mem_cons_of_mem a hx)
    obtain ⟨hp1, hp2, hp3, hp4⟩ := hinv
    rcases hacts a (List.mem_cons_self a rest) with ha | ha <;> subst ha
    · cases hsync : s.isSyncing with
      | true =>
        rw [engineRun] at hrun
        simp [engineStep, hsync] at hrun
        exact ih s hrest ⟨hp1, hp2, hp3, hp4⟩ hrun
      | false =>
        have h0 : s.activePeriodicRuns = 0 := hp2 hsync
        rw [engineRun] at hrun
        simp [engineStep, hsync] at hrun
        refine ih { isSyncing := true, activePeriodicRuns := s.activePeriodicRuns + 1, activeRebuildRuns := s.activeRebuildRuns, activeStartupRuns := s.activeStartupRuns } hrest ⟨?_, ?_, hp3, hp4⟩ hrun
        · simp [h0]
        · intro hfalse
          simp at hfalse
    · cases h0 : s.activePeriodicRuns == 0 with
      | true =>
        rw [engineRun] at hrun
        simp [engineStep, h0] at hrun
      | false =>
        rw [engineRun] at hrun
        simp [engineStep, h0] at hrun
        have hne : s.activePeriodicRuns ≠ 0 := by
          intro hc
          rw [hc] at h0
          simp at h0
        refine ih { isSyncing := false, activePeriodicRuns := s.activePeriodicRuns - 1, activeRebuildRuns := s.activeRebuildRuns, activeStartupRuns := s.activeStartupRuns } hrest ⟨?_, ?_, hp3, hp4⟩ hrun
        · show s.activePeriodicRuns - 1 ≤ 1
          omega
        · intro _
          show s.activePeriodicRuns - 1 = 0
          omega

/-- C9 (amended): only the periodic tick is guarded by the in-process
`isSyncing` flag — among periodic entries alone at most one catch-up run is
ever active and an overlapping tick is skipped rather than queued; the startup
catch-up and the manual rebuild neither check nor set the flag, so they can
overlap a periodic run. -/
theorem c9_amended_only_periodic_is_guarded (actions : List EngineAction)
    (hacts : ∀ a ∈ actions,
      a = EngineAction.periodicTick ∨ a = EngineAction.periodicComplete)
    (s' : EngineGuardState) (hrun : engineRun {} actions = some s') :
    activeCatchUpRuns s' ≤ 1 ∧
    engineStep { s' with isSyncing := true } EngineAction.periodicTick
      = some { s' with isSyncing := true } := by
  obtain ⟨h1, _, h3, h4⟩ := engineRun_periodic_only actions hacts {}
    ⟨by decide, fun _ => rfl, rfl, rfl⟩ s' hrun
  constructor
  · unfold activeCatchUpRuns
    omega
  · simp [engineStep]

/-- C9 witness: the schedule tick, complete, tick. -/
theorem c9_amended_only_periodic_is_guarded_witness :
    activeCatchUpRuns
      { isSyncing := true, activePeriodicRuns := 1,
        activeRebuildRuns := 0, activeStartupRuns := 0 } ≤ 1 ∧
    engineStep
      { ({ isSyncing := true, activePeriodicRuns := 1,
           activeRebuildRuns := 0, activeStartupRuns := 0 } : EngineGuardState)
        with isSyncing := true } EngineAction.periodicTick
      = some { ({ isSyncing := true, activePeriodicRuns := 1,
                  activeRebuildRuns := 0, activeStartupRuns := 0 } : EngineGuardState)
               with isSyncing := true } :=
  c9_amended_only_periodic_is_guarded
    [EngineAction.periodicTick, EngineAction.periodicComplete, EngineAction.periodicTick]
    (by decide)
    { isSyncing := true, activePeriodicRuns := 1,
      activeRebuildRuns := 0, activeStartupRuns := 0 }
    (by decide)

/-! ### C8 — replay idempotence -/

/-- Events whose handler is a pure, state-independent overwrite: the
email-verification, status-change and delete handlers always, and the profile
update exactly when it changes both name components or neither (a one-sided
name change makes the handler recombine the display name from the current row
state). -/
def replaySafeEvent (e : DomainEventEntity) : Bool :=
  match e.eventData with
  | .emailVerificationSuccess _ => true
  | .userStatusChanged _ _ => true
  | .userDeleted _ => true
  | .profileUpdated _ changes => truthy changes.firstName == truthy changes.lastName
  | _ => false

/-- Pending field writes of one UPDATE statement on a projection row. -/
structure ProjectionWrite where
  fullName : Option String := none
  status : Option String := none
  phone : Option (Option String) := none
  deletedAt : Option (Option Nat) := none
  updatedAt : Option Nat := none
  lastEventVersion : Option (Option Nat) := none
deriving DecidableEq

/-- Apply pending writes to a row; absent fields keep their value. -/
def applyWrite (r : UserProjectionEntity) (w : ProjectionWrite) : UserProjectionEntity :=
  { r with
    fullName := w.fullName.getD r.fullName
    status := w.status.getD r.status
    phone := w.phone.getD r.phone
    deletedAt := w.deletedAt.getD r.deletedAt
    updatedAt := w.updatedAt.getD r.updatedAt
    lastEventVersion := w.lastEventVersion.getD r.lastEventVersion }

/-- Sequencing of two UPDATE statements: per field, the later write wins. -/
def seqWrite (w1 w2 : ProjectionWrite) : ProjectionWrite :=
  { fullName := w2.fullName <|> w1.fullName
    status := w2.status <|> w1.status
    phone := w2.phone <|> w1.phone
    deletedAt := w2.deletedAt <|> w1.deletedAt
    updatedAt := w2.updatedAt <|> w1.updatedAt
    lastEventVersion := w2.lastEventVersion <|> w1.lastEventVersion }

theorem option_orElse_getD {α : Type} (a b : Option α) (d : α) :
    (a <|> b).getD d = a.getD (b.getD d) := by
  cases a <;> rfl

theorem option_orElse_self {α : Type} (a : Option α) : (a <|> a) = a := by
  cases a <;> rfl

theorem applyWrite_empty (r : UserProjectionEntity) : applyWrite r {} = r := rfl

theorem applyWrite_id (r : UserProjectionEntity) (w : ProjectionWrite) :
    (applyWrite r w).id = r.id := rfl

theorem applyWrite_seq (r : UserProjectionEntity) (w1 w2 : ProjectionWrite) :
    applyWrite (applyWrite r w1) w2 = applyWrite r (seqWrite w1 w2) := by
  simp [applyWrite, seqWrite, option_orElse_getD]

theorem seqWrite_self (w : ProjectionWrite) : seqWrite w w = w := by
  simp [seqWrite, option_orElse_self]

/-- With a truthy value the JavaScript fallback of `x || d` is ignored. -/
theorem jsOr_of_truthy {o : Option String} (h : truthy o = true) (d : String) :
    jsOr o d = jsOr o "" := by
  cases o with
  | none => simp [truthy] at h
  | some s =>
    simp [truthy] at h
    simp [jsOr, h]

/-- The UPDATE a replay-safe event performs on the row with the given id,
as pending field writes (empty when the event targets another user). -/
def eventWrite (rowId : String) (e : DomainEventEntity) : ProjectionWrite :=
  match e.eventData with
  | .emailVerificationSuccess userId =>
    if rowId == userId then
      { status := some "ACCEPTED", updatedAt := some e.occurredAt }
    else {}
  | .userStatusChanged userId newStatus =>
    if rowId == userId then
      { status := some newStatus, updatedAt := some e.occurredAt,
        lastEventVersion := some (some e.version) }
    else {}
  | .userDeleted userId =>
    if rowId == userId then
      { deletedAt := some (some e.occurredAt), status := some "BLOCKED",
        updatedAt := some e.occurredAt }
    else {}
  | .profileUpdated userId changes =>
    if rowId == userId then
      { fullName :=
          if truthy changes.firstName && truthy changes.lastName then
            some (jsTrim (jsOr changes.firstName "" ++ " " ++ jsOr changes.lastName ""))
          else none
        phone := match changes.phone with
          | some p => some (some p)
          | none => none
        updatedAt := some e.occurredAt
        lastEventVersion := some (some e.version) }
    else {}
  | _ => {}

/-- On a one-row store, a replay-safe event acts as the application of its
state-independent pending writes. -/
theorem applyEventHandler_single (e : DomainEventEntity) (r : UserProjectionEntity)
    (hsafe : replaySafeEvent e = true) :
    applyEventHandler e [r] = [applyWrite r (eventWrite r.id e)] := by
  cases hd : e.eventData with
  | userRegistered userId email userData =>
    simp [replaySafeEvent, hd] at hsafe
  | userLoginSuccess userId ipAddress =>
    simp [replaySafeEvent, hd] at hsafe
  | unhandled t =>
    simp [replaySafeEvent, hd] at hsafe
  | emailVerificationSuccess userId =>
    simp only [applyEventHandler, hd, eventWrite]
    cases hid : r.id == userId with
    | true =>
      have hid2 : r.id = userId := by simpa using hid
      simp [handleEmailVerified, updateUserProjection, hid, hid2, applyWrite]
    | false =>
      have hid2 : ¬r.id = userId := by simpa using hid
      simp [handleEmailVerified, updateUserProjection, hid, hid2, applyWrite_empty]
  | userStatusChanged userId newStatus =>
    simp only [applyEventHandler, hd, eventWrite]
    cases hid : r.id == userId with
    | true =>
      have hid2 : r.id = userId := by simpa using hid
      simp [handleStatusChanged, updateUserProjection, hid, hid2, applyWrite]
    | false =>
      have hid2 : ¬r.id = userId := by simpa using hid
      simp [handleStatusChanged, updateUserProjection, hid, hid2, applyWrite_empty]
  | userDeleted userId =>
    simp only [applyEventHandler, hd, eventWrite]
    cases hid : r.id == userId with
    | true =>
      have hid2 : r.id = userId := by simpa using hid
      simp [handleUserDeleted, updateUserProjection, hid, hid2, applyWrite]
    | false =>
      have hid2 : ¬r.id = userId := by simpa using hid
      simp [handleUserDeleted, updateUserProjection, hid, hid2, applyWrite_empty]
  | profileUpdated userId changes =>
    have hboth : truthy changes.firstName = truthy changes.lastName := by
      simpa [replaySafeEvent, hd] using hsafe
    simp only [applyEventHandler, hd, eventWrite]
    cases hid : r.id == userId with
    | false =>
      have hid2 : ¬r.id = userId := by simpa using hid
      cases hg : truthy changes.firstName || truthy changes.lastName <;>
        simp [handleProfileUpdated, updateUserProjection, findUserProjection,
          hid, hid2, hg, applyWrite_empty]
    | true =>
      have hid2 : r.id = userId := by simpa using hid
      cases hcf : truthy changes.firstName with
      | false =>
        have hcl : truthy changes.lastName = false := hboth ▸ hcf
        cases hp : changes.phone with
        | none =>
          simp [handleProfileUpdated, updateUserProjection, findUserProjection,
            hid, hid2, hcf, hcl, hp, applyWrite]
        | some p =>
          simp [handleProfileUpdated, updateUserProjection, findUserProjection,
            hid, hid2, hcf, hcl, hp, applyWrite]
      | true =>
        have hcl : truthy changes.lastName = true := hboth ▸ hcf
        cases hp : changes.phone with
        | none =>
          simp [handleProfileUpdated, updateUserProjection, findUserProjection,
            hid, hid2, hcf, hcl, hp, applyWrite,
            jsOr_of_truthy hcf, jsOr_of_truthy hcl]
        | some p =>
          simp [handleProfileUpdated, updateUserProjection, findUserProjection,
            hid, hid2, hcf, hcl, hp, applyWrite,
            jsOr_of_truthy hcf, jsOr_of_truthy hcl]

/-- Net pending writes of a history of replay-safe events. -/
def historyWrite (rowId : String) : List DomainEventEntity → ProjectionWrite
  | [] => {}
  | e :: rest => seqWrite (eventWrite rowId e) (historyWrite rowId rest)

/-- Replaying a history of replay-safe events over a one-row store applies the
history's net pending writes to the row. -/
theorem applyEventHistory_single (rest : List DomainEventEntity) :
    ∀ (r : UserProjectionEntity) (rowId : String), r.id = rowId →
      (∀ e ∈ rest, replaySafeEvent e = true) →
      applyEventHistory [r] rest = [applyWrite r (historyWrite rowId rest)] := by
  induction rest with
  | nil =>
    intro r rowId hid hsafe
    simp [applyEventHistory, historyWrite, applyWrite_empty]
  | cons e rest ih =>
    intro r rowId hid hsafe
    subst hid
    have he := hsafe e (List.mem_cons_self e rest)
    have hrest : ∀ x ∈ rest, replaySafeEvent x = true :=
      fun x hx => hsafe x (List.mem_cons_of_mem e hx)
    have hstep : applyEventHistory [r] (e :: rest)
        = applyEventHistory [applyWrite r (eventWrite r.id e)] rest := by
      simp [applyEventHistory, applyEventHandler_single e r he]
    rw [hstep, ih (applyWrite r (eventWrite r.id e)) r.id (applyWrite_id r _) hrest,
      applyWrite_seq, historyWrite]

/-- C8: counterexample — replaying a history twice is not idempotent for every
history of the five handlers: registering "John Smith" and then applying a
`ProfileUpdated` whose firstName change is the two-word "Mary Ann" (no
lastName change) yields full name "Mary Ann Smith" after one replay but
"Mary Ann Ann Smith" after replaying the history twice, because the handler
recombines the display name from the current row's words. -/
theorem c8_counterexample :
    ((applyEventHistory []
      [{ aggregateId := "u1", version := 1, occurredAt := 1,
         eventData := EventData.userRegistered "u1" "a@example.com"
           { firstName := "John", lastName := "Smith" } },
       { aggregateId := "u1", version := 2, occurredAt := 2,
         eventData := EventData.profileUpdated "u1"
           { firstName := some "Mary Ann" } }]).map fun r => r.fullName)
      = ["Mary Ann Smith"] ∧
    ((applyEventHistory
      (applyEventHistory []
        [{ aggregateId := "u1", version := 1, occurredAt := 1,
           eventData := EventData.userRegistered "u1" "a@example.com"
             { firstName := "John", lastName := "Smith" } },
         { aggregateId := "u1", version := 2, occurredAt := 2,
           eventData := EventData.profileUpdated "u1"
             { firstName := some "Mary Ann" } }])
      [{ aggregateId := "u1", version := 1, occurredAt := 1,
         eventData := EventData.userRegistered "u1" "a@example.com"
           { firstName := "John", lastName := "Smith" } },
       { aggregateId := "u1", version := 2, occurredAt := 2,
         eventData := EventData.profileUpdated "u1"
           { firstName := some "Mary Ann" } }]).map fun r => r.fullName)
      = ["Mary Ann Ann Smith"] ∧
    applyEventHistory
      (applyEventHistory []
        [{ aggregateId := "u1", version := 1, occurredAt := 1,
           eventData := EventData.userRegistered "u1" "a@example.com"
             { firstName := "John", lastName := "Smith" } },
         { aggregateId := "u1", version := 2, occurredAt := 2,
           eventData := EventData.profileUpdated "u1"
             { firstName := some "Mary Ann" } }])
      [{ aggregateId := "u1", version := 1, occurredAt := 1,
         eventData := EventData.userRegistered "u1" "a@example.com"
           { firstName := "John", lastName := "Smith" } },
       { aggregateId := "u1", version := 2, occurredAt := 2,
         eventData := EventData.profileUpdated "u1"
           { firstName := some "Mary Ann" } }]
      ≠ applyEventHistory []
        [{ aggregateId := "u1", version := 1, occurredAt := 1,
           eventData := EventData.userRegistered "u1" "a@example.com"
             { firstName := "John", lastName := "Smith" } },
         { aggregateId := "u1", version := 2, occurredAt := 2,
           eventData := EventData.profileUpdated "u1"
             { firstName := some "Mary Ann" } }] := by
  refine ⟨?_, ?_, ?_⟩ <;> decide

/-- C8 (amended): replay idempotence holds for an aggregate history that
starts with its `UserRegistered` event and continues with events of the four
update handlers, provided every `ProfileUpdated` change touches both name
components or neither (so each handler write is a state-independent absolute
overwrite): replaying the full ordered history twice produces the same final
projection row as replaying it once.  A one-sided name change can break this
(see the counterexample), as can the login handler's relative counter. -/
theorem c8_amended_replay_idempotent (regEvent : DomainEventEntity)
    (userId email : String) (userData : UserData)
    (hreg : regEvent.eventData = EventData.userRegistered userId email userData)
    (rest : List DomainEventEntity)
    (hsafe : ∀ e ∈ rest, replaySafeEvent e = true) :
    applyEventHistory (applyEventHistory [] (regEvent :: rest)) (regEvent :: rest)
      = applyEventHistory [] (regEvent :: rest) := by
  have hreg0 : applyEventHandler regEvent []
      = [registeredProjectionRow userId email userData regEvent.occurredAt] := by
    simp [applyEventHandler, hreg, handleUserRegistered]
  have hid0 : (registeredProjectionRow userId email userData regEvent.occurredAt).id
      = userId := rfl
  have h1 : applyEventHistory [] (regEvent :: rest)
      = [applyWrite (registeredProjectionRow userId email userData regEvent.occurredAt)
          (historyWrite userId rest)] := by
    have hh : applyEventHistory [] (regEvent :: rest)
        = applyEventHistory
            [registeredProjectionRow userId email userData regEvent.occurredAt] rest := by
      simp [applyEventHistory, hreg0]
    rw [hh, applyEventHistory_single rest
      (registeredProjectionRow userId email userData regEvent.occurredAt) userId hid0 hsafe]
  have h2 : applyEventHandler regEvent
      [applyWrite (registeredProjectionRow userId email userData regEvent.occurredAt)
        (historyWrite userId rest)]
      = [applyWrite (registeredProjectionRow userId email userData regEvent.occurredAt)
          (historyWrite userId rest)] := by
    simp [applyEventHandler, hreg, handleUserRegistered, applyWrite, registeredProjectionRow]
  have hid1 : (applyWrite (registeredProjectionRow userId email userData regEvent.occurredAt)
      (historyWrite userId rest)).id = userId := hid0
  rw [h1]
  have hh2 : applyEventHistory
      [applyWrite (registeredProjectionRow userId email userData regEvent.occurredAt)
        (historyWrite userId rest)] (regEvent :: rest)
      = applyEventHistory
          [applyWrite (registeredProjectionRow userId email userData regEvent.occurredAt)
            (historyWrite userId rest)] rest := by
    simp [applyEventHistory, h2]
  rw [hh2, applyEventHistory_single rest
    (applyWrite (registeredProjectionRow userId email userData regEvent.occurredAt)
      (historyWrite userId rest)) userId hid1 hsafe,
    applyWrite_seq, seqWrite_self]

/-- C8 witness: register, then a profile update changing both name components. -/
theorem c8_amended_replay_idempotent_witness :
    applyEventHistory
      (applyEventHistory []
        ({ aggregateId := "u1", version := 1, occurredAt := 1,
           eventData := EventData.userRegistered "u1" "a@example.com"
             { firstName := "Alice", lastName := "Smith" } } ::
         [{ aggregateId := "u1", version := 2, occurredAt := 2,
            eventData := EventData.profileUpdated "u1"
              { firstName := some "Mary", lastName := some "Jones" } }]))
      ({ aggregateId := "u1", version := 1, occurredAt := 1,
         eventData := EventData.userRegistered "u1" "a@example.com"
           { firstName := "Alice", lastName := "Smith" } } ::
       [{ aggregateId := "u1", version := 2, occurredAt := 2,
          eventData := EventData.profileUpdated "u1"
            { firstName := some "Mary", lastName := some "Jones" } }])
      = applyEventHistory []
          ({ aggregateId := "u1", version := 1, occurredAt := 1,
             eventData := EventData.userRegistered "u1" "a@example.com"
               { firstName := "Alice", lastName := "Smith" } } ::
           [{ aggregateId := "u1", version := 2, occurredAt := 2,
              eventData := EventData.profileUpdated "u1"
                { firstName := some "Mary", lastName := some "Jones" } }]) :=
  c8_amended_replay_idempotent
    { aggregateId := "u1", version := 1, occurredAt := 1,
      eventData := EventData.userRegistered "u1" "a@example.com"
        { firstName := "Alice", lastName := "Smith" } }
    "u1" "a@example.com" { firstName := "Alice", lastName := "Smith" } rfl
    [{ aggregateId := "u1", version := 2, occurredAt := 2,
       eventData := EventData.profileUpdated "u1"
         { firstName := some "Mary", lastName := some "Jones" } }]
    (by decide)
